import Mathlib

/-!
Formal model of the cooperative task-scheduling subsystem in
`lib/libimhex/source/api/task_manager.cpp` (ImHex).

The C++ code operates on shared mutable state (a `Task` object referenced by
the worker, by observers through `TaskHolder`, and by the manager's registry).
We embed it shallowly: a `Task` is a record of its fields, every member
function is a state transformer, and a C++ `throw` of `Task::TaskInterruptor`
or of an ordinary exception is an explicit `Option Thrown` component of the
result (the task state survives the unwind, exactly as the heap object does in
C++).  Machine integers (`u64`, `u32`) are `Nat` with explicit reductions
modulo `2 ^ 64` / `2 ^ 32` at the points where C++ arithmetic wraps or casts.
-/

namespace TaskManagerSpec

/-- Modulus of the C++ `u64` type. -/
def U64 : Nat := 2 ^ 64

/-- Modulus of the C++ `u32` type. -/
def U32 : Nat := 2 ^ 32

/-- The control-flow signals a work function can exit with, as distinguished
by the worker loop's catch clauses in `TaskManager::init`:
`Task::TaskInterruptor`, a `std::exception` carrying a message, or an
exception of unknown type. -/
inductive Thrown where
  | interruptor
  | stdExc (msg : String)
  | unknownExc
deriving DecidableEq

/-- State of a `hex::Task`: its progress counters, classification and status
flags, and the recorded exception message.  The work function itself is kept
outside the record (see `WorkFn`), since the embedding passes it explicitly. -/
structure Task where
  unlocalizedName : String
  maxValue : Nat
  currValue : Nat
  background : Bool
  finished : Bool
  hadException : Bool
  interrupted : Bool
  shouldInterrupt : Bool
  exceptionMessage : String
deriving DecidableEq

/-- Task constructor (`Task::Task(name, maxValue, background, function)`).
Modelled from the spec: the remaining members are declared with initializers
in the class header, which is not under `src/`; per the spec's data model the
status flags start false, the current progress starts at 0 and the exception
message starts unpopulated (empty). -/
def Task.create (name : String) (maxValue : Nat) (background : Bool) : Task :=
  { unlocalizedName := name
    maxValue := maxValue % U64
    currValue := 0
    background := background
    finished := false
    hadException := false
    interrupted := false
    shouldInterrupt := false
    exceptionMessage := "" }

/-- `Task::update(u64 value)`: store the new progress value, then throw
`TaskInterruptor` if an interrupt has been requested.  The returned task is
the state of the shared object after the call (it survives the throw). -/
def Task.update (t : Task) (value : Nat) : Task × Option Thrown :=
  let t' := { t with currValue := value % U64 }
  if t'.shouldInterrupt then (t', some Thrown.interruptor) else (t', none)

/-- `Task::setMaxValue(u64 value)`. -/
def Task.setMaxValue (t : Task) (value : Nat) : Task :=
  { t with maxValue := value % U64 }

/-- `Task::interrupt()`: set the interrupt-request flag.  The optional
synchronous interrupt callback it then invokes has no effect on the task's
own fields and is not modelled. -/
def Task.interrupt (t : Task) : Task :=
  { t with shouldInterrupt := true }

/-- `Task::clearException()`: reset the failure flag (and nothing else). -/
def Task.clearException (t : Task) : Task :=
  { t with hadException := false }

/-- `Task::exception(const char *message)`: record the message and set the
failure flag. -/
def Task.exception (t : Task) (message : String) : Task :=
  { t with exceptionMessage := message, hadException := true }

/-- `Task::finish()`. -/
def Task.finish (t : Task) : Task :=
  { t with finished := true }

/-- `Task::interruption()`. -/
def Task.interruption (t : Task) : Task :=
  { t with interrupted := true }

/-- `Task::isFinished()`. -/
def Task.isFinished (t : Task) : Bool := t.finished

/-- `Task::wasInterrupted()`. -/
def Task.wasInterrupted (t : Task) : Bool := t.interrupted

/-- `Task::isBackgroundTask()`. -/
def Task.isBackgroundTask (t : Task) : Bool := t.background

/-- `Task::getValue()`. -/
def Task.getValue (t : Task) : Nat := t.currValue

/-- `Task::getMaxValue()`. -/
def Task.getMaxValue (t : Task) : Nat := t.maxValue

/-- `Task::getExceptionMessage()`. -/
def Task.getExceptionMessage (t : Task) : String := t.exceptionMessage

/-- A `hex::TaskHolder`.  Modelled from the spec: the holder's `m_task`
member is a `std::weak_ptr<Task>` declared in the header (not under `src/`);
`task = some t` models a holder whose `m_task.lock()` yields a live referent
in state `t`, and `task = none` one whose referent has been destroyed. -/
structure TaskHolder where
  task : Option Task
deriving DecidableEq

/-- `TaskHolder::isRunning()`. -/
def TaskHolder.isRunning (h : TaskHolder) : Bool :=
  match h.task with
  | none => false
  | some t => !t.isFinished

/-- `TaskHolder::hadException()` (note the source returns the negation of the
underlying flag for a live referent). -/
def TaskHolder.hadException (h : TaskHolder) : Bool :=
  match h.task with
  | none => false
  | some t => !t.hadException

/-- `TaskHolder::shouldInterrupt()` (again negated in the source). -/
def TaskHolder.shouldInterrupt (h : TaskHolder) : Bool :=
  match h.task with
  | none => false
  | some t => !t.shouldInterrupt

/-- `TaskHolder::wasInterrupted()` (again negated in the source). -/
def TaskHolder.wasInterrupted (h : TaskHolder) : Bool :=
  match h.task with
  | none => false
  | some t => !t.wasInterrupted

/-- `TaskHolder::getProgress()`: `return false` (that is, 0) for a dead
referent, 0 when the ceiling is 0, and otherwise
`u32((task->getValue() * 100) / task->getMaxValue())` — a `u64` multiply
(wrapping modulo `2 ^ 64`), a `u64` division, and a truncating cast to
`u32`. -/
def TaskHolder.getProgress (h : TaskHolder) : Nat :=
  match h.task with
  | none => 0
  | some t =>
    if t.getMaxValue == 0 then 0
    else t.getValue * 100 % U64 / t.getMaxValue % U32

/-! ### Work functions and the worker loop

A work function receives a mutable reference to its `Task`; its observable
interactions with the task go through the public API (`update`, `setMaxValue`,
`interrupt`, `clearException`).  We model a work function as a straight-line
sequence of such calls followed by how it exits: a normal return or a throw.
Only `update` can itself throw (the `TaskInterruptor` checkpoint). -/

inductive WorkOp where
  | update (value : Nat)
  | setMaxValue (value : Nat)
  | interrupt
  | clearException
deriving DecidableEq

/-- Effect of one API call made by the work function on its task. -/
def execWorkOp (t : Task) : WorkOp → Task × Option Thrown
  | WorkOp.update v => t.update v
  | WorkOp.setMaxValue v => (t.setMaxValue v, none)
  | WorkOp.interrupt => (t.interrupt, none)
  | WorkOp.clearException => (t.clearException, none)

/-- How a work function's body exits after its API calls. -/
inductive WorkEnd where
  | ret
  | throwStd (msg : String)
  | throwUnknown
  | throwInterruptor
deriving DecidableEq

/-- Exit signal corresponding to a `WorkEnd`. -/
def endingThrown : WorkEnd → Option Thrown
  | WorkEnd.ret => none
  | WorkEnd.throwStd m => some (Thrown.stdExc m)
  | WorkEnd.throwUnknown => some Thrown.unknownExc
  | WorkEnd.throwInterruptor => some Thrown.interruptor

/-- A work function: its API calls in order, and how it exits if it reaches
the end of its body. -/
structure WorkFn where
  ops : List WorkOp
  ending : WorkEnd

/-- Run the work function's API calls in order; a throw (only `update` can
throw) unwinds past the remaining calls. -/
def runWorkOps (t : Task) : List WorkOp → Task × Option Thrown
  | [] => (t, none)
  | op :: rest =>
    let r := execWorkOp t op
    match r.2 with
    | some s => (r.1, some s)
    | none => runWorkOps r.1 rest

/-- The task states observable after each API call of the work function
(the trace stops at the call that throws). -/
def runWorkOpsTrace (t : Task) : List WorkOp → List Task
  | [] => []
  | op :: rest =>
    let r := execWorkOp t op
    match r.2 with
    | some _ => [r.1]
    | none => r.1 :: runWorkOpsTrace r.1 rest

/-- Run a whole work function: `task->m_function(*task)` as seen by the
worker's `try` block — final task state plus the signal it exited with. -/
def runWork (w : WorkFn) (t : Task) : Task × Option Thrown :=
  let r := runWorkOps t w.ops
  match r.2 with
  | some s => (r.1, some s)
  | none => (r.1, endingThrown w.ending)

/-- The worker loop's catch clauses (`TaskManager::init`): a
`TaskInterruptor` marks the task interrupted, a `std::exception` records its
message, any other exception records "Unknown Exception"; a normal return
changes nothing. -/
def classifyOutcome (t : Task) : Option Thrown → Task
  | none => t
  | some Thrown.interruptor => t.interruption
  | some (Thrown.stdExc m) => Task.exception t m
  | some Thrown.unknownExc => Task.exception t "Unknown Exception"

/-- One worker iteration on a dequeued task: run the work function, classify
its outcome, then `task->finish()`. -/
def workerRunTask (w : WorkFn) (t : Task) : Task :=
  (classifyOutcome (runWork w t).1 (runWork w t).2).finish

/-- All task states observable during a worker iteration, in order: after
each API call of the work function, after outcome classification, and after
`finish()`. -/
def workerRunTaskTrace (w : WorkFn) (t : Task) : List Task :=
  runWorkOpsTrace t w.ops
    ++ [classifyOutcome (runWork w t).1 (runWork w t).2, workerRunTask w t]

/-- Number of terminal outcomes (completed normally / interrupted / failed)
that a task state exhibits. -/
def outcomeCount (t : Task) : Nat :=
  (if !t.interrupted && !t.hadException then 1 else 0)
    + (if t.interrupted then 1 else 0) + (if t.hadException then 1 else 0)

/-! ### All task mutators, for reachability statements

Unlike `WorkOp` (the calls available to a work function), `TOp` also covers
the mutators used by the manager and the worker, so `applyTOps` reaches every
task state any sequence of the Task operations can produce. -/

inductive TOp where
  | update (value : Nat)
  | setMaxValue (value : Nat)
  | interrupt
  | clearException
  | exception (message : String)
  | finish
  | interruption
deriving DecidableEq

/-- Apply one task mutator (for `update`, the stored state after the call,
whether or not it throws). -/
def applyTOp (t : Task) : TOp → Task
  | TOp.update v => (t.update v).1
  | TOp.setMaxValue v => t.setMaxValue v
  | TOp.interrupt => t.interrupt
  | TOp.clearException => t.clearException
  | TOp.exception m => Task.exception t m
  | TOp.finish => t.finish
  | TOp.interruption => t.interruption

/-- Apply a sequence of task mutators. -/
def applyTOps (t : Task) (ops : List TOp) : Task := ops.foldl applyTOp t

/-! ### The deferred-call queue

`s_deferredCalls` holds zero-argument callbacks.  The only effect of a
callback that matters to the queue's semantics is which further callbacks it
schedules via `TaskManager::doLater`, so a callback is modelled by an
identifier plus the identifiers it would pass to `doLater` when it runs.
`runDeferredCalls` locks `s_deferredCallsMutex` — a non-recursive
`std::mutex` — and holds it across the whole range-for that invokes the
callbacks, and across the final `clear()`.  `doLater` locks that same mutex
before its `push_back`.  Consequently a callback that calls `doLater` while
it is being run by `runDeferredCalls` re-locks a mutex its own thread
already holds: undefined behaviour for `std::mutex`, in practice a
self-deadlock — the `push_back` is never reached, the loop never advances
past that callback, and the `runDeferredCalls` call never returns.  The
model makes the lock explicit in the result type: a completed run yields the
invoked identifiers and the cleared queue; a run in which some callback
calls `doLater` yields the identifiers invoked up to and including that
callback, and no resulting state (the call never completes). -/

structure DCall where
  id : Nat
  schedules : List Nat
deriving DecidableEq

/-- The deferred-call queue state. -/
structure DeferredState where
  deferredCalls : List DCall
deriving DecidableEq

/-- `TaskManager::doLater`, called while the queue mutex is free: lock,
append the callback, unlock. -/
def doLater (s : DeferredState) (c : DCall) : DeferredState :=
  ⟨s.deferredCalls ++ [c]⟩

/-- The range-for of `TaskManager::runDeferredCalls`, executed while
`s_deferredCallsMutex` is held: invoke each callback in order.  A callback
whose body calls `doLater` blocks re-locking the held non-recursive mutex,
so the loop hangs inside that callback: `Except.error ids` records the
identifiers invoked up to and including it (their side effects happened)
with no defined continuation; `Except.ok ids` is a run in which every
callback returned, in the order invoked. -/
def runDeferredLocked : List DCall → Except (List Nat) (List Nat)
  | [] => Except.ok []
  | c :: rest =>
    if c.schedules.isEmpty then
      match runDeferredLocked rest with
      | Except.ok ids => Except.ok (c.id :: ids)
      | Except.error ids => Except.error (c.id :: ids)
    else
      Except.error [c.id]

/-- `TaskManager::runDeferredCalls`: under the held mutex, run the loop and
then clear the queue.  The first component lists the callbacks actually
invoked, in order; the second is `some` of the post-call state when the call
completes, and `none` when it deadlocks inside a re-entrant `doLater` (the
queue is then never cleared and the call never returns, so no later
`runDeferredCalls` call can be made by that thread). -/
def runDeferredCalls (s : DeferredState) : List Nat × Option DeferredState :=
  match runDeferredLocked s.deferredCalls with
  | Except.ok ids => (ids, some ⟨[]⟩)
  | Except.error ids => (ids, none)

/-! ### The task registry and the completion-callback queue -/

/-- The manager state the registry-level operations act on: `s_tasks` and
`s_tasksFinishedCallbacks` (completion callbacks are opaque, identified by a
number). -/
structure TMState where
  tasks : List Task
  tasksFinishedCallbacks : List Nat
deriving DecidableEq

/-- Registry contents after `std::erase_if(s_tasks, finished && !hadException)`. -/
def survivingTasks (tasks : List Task) : List Task :=
  tasks.filter fun t => !(t.isFinished && !t.hadException)

/-- `TaskManager::collectGarbage`: erase finished, non-failed tasks; if the
registry is then empty, invoke every completion callback in order and clear
that queue.  Returns the new state and the invoked callback identifiers. -/
def collectGarbage (s : TMState) : TMState × List Nat :=
  if (survivingTasks s.tasks).isEmpty then
    (⟨survivingTasks s.tasks, []⟩, s.tasksFinishedCallbacks)
  else
    (⟨survivingTasks s.tasks, s.tasksFinishedCallbacks⟩, [])

/-- `TaskManager::runWhenTasksFinished`: append a completion callback. -/
def runWhenTasksFinished (s : TMState) (c : Nat) : TMState :=
  { s with tasksFinishedCallbacks := s.tasksFinishedCallbacks ++ [c] }

/-- `TaskManager::getRunningTaskCount`: `std::count_if` over the registry
with predicate `!task->isBackgroundTask()`. -/
def getRunningTaskCount (s : TMState) : Nat :=
  s.tasks.countP fun t => !t.isBackgroundTask

/-- `TaskManager::getRunningBackgroundTaskCount`: `std::count_if` over the
registry with predicate `task->isBackgroundTask()`. -/
def getRunningBackgroundTaskCount (s : TMState) : Nat :=
  s.tasks.countP fun t => t.isBackgroundTask

/-- Count described by the claim's words for `getRunningTaskCount`:
registered tasks that are neither finished nor background (spec-side
definition, for comparison with the source-side one). -/
def specRunningTaskCount (s : TMState) : Nat :=
  (s.tasks.filter fun t => !t.isFinished && !t.isBackgroundTask).length

/-- Count described by the claim's words for `getRunningBackgroundTaskCount`:
registered tasks that are not finished and are background. -/
def specRunningBackgroundTaskCount (s : TMState) : Nat :=
  (s.tasks.filter fun t => !t.isFinished && t.isBackgroundTask).length

/-! ### Theorems -/

/-- C1: for a live referent, `TaskHolder::hadException`,
`TaskHolder::shouldInterrupt` and `TaskHolder::wasInterrupted` return the
NEGATION of the underlying task's flag, contradicting the claim (the
accessors' own names and the spec's intent); only the dead-referent half of
the claim (every accessor returns false, including `isRunning`) holds. -/
theorem taskHolder_status_inversion :
    ((Task.create "t" 0 false).exception "Boom").hadException = true ∧
    TaskHolder.hadException ⟨some ((Task.create "t" 0 false).exception "Boom")⟩ = false ∧
    ((Task.create "t" 0 false).interrupt).shouldInterrupt = true ∧
    TaskHolder.shouldInterrupt ⟨some ((Task.create "t" 0 false).interrupt)⟩ = false ∧
    ((Task.create "t" 0 false).interruption).wasInterrupted = true ∧
    TaskHolder.wasInterrupted ⟨some ((Task.create "t" 0 false).interruption)⟩ = false ∧
    TaskHolder.hadException ⟨none⟩ = false ∧
    TaskHolder.shouldInterrupt ⟨none⟩ = false ∧
    TaskHolder.wasInterrupted ⟨none⟩ = false ∧
    TaskHolder.isRunning ⟨none⟩ = false := by
  decide

theorem runDeferredLocked_eq (q : List DCall) :
    runDeferredLocked q
      = match q.dropWhile (fun c => c.schedules.isEmpty) with
        | [] =>
          Except.ok ((q.takeWhile fun c => c.schedules.isEmpty).map DCall.id)
        | c :: _ =>
          Except.error
            ((q.takeWhile fun c => c.schedules.isEmpty).map DCall.id
              ++ [c.id]) := by
  induction q with
  | nil => rfl
  | cons c rest ih =>
    cases hc : c.schedules.isEmpty with
    | true =>
      simp only [runDeferredLocked, hc, if_true, ih, List.takeWhile_cons,
        List.dropWhile_cons]
      cases hd : rest.dropWhile (fun c => c.schedules.isEmpty) with
      | nil => simp
      | cons d tail => simp
    | false =>
      simp only [runDeferredLocked, hc, if_false, List.takeWhile_cons,
        List.dropWhile_cons]
      simp

/-- C2 counterexample: a queue holding the single callback `0`, whose body
calls `doLater` to schedule callback `1`.  Callback `0` is invoked; its
`doLater` then re-locks the non-recursive `s_deferredCallsMutex` that
`runDeferredCalls` holds across the loop, so the call never completes
(second component `none`): callback `1` is never appended, is not invoked in
that pass (invoked list is `[0]`), and — since `runDeferredCalls` never
returns — is not invoked by any next `runDeferredCalls` call either,
refuting the claim's "is invoked by the next runDeferredCalls() call". -/
theorem runDeferredCalls_reentrant_deadlock :
    (runDeferredCalls ⟨[⟨0, [1]⟩]⟩).1 = [0] ∧
    1 ∉ (runDeferredCalls ⟨[⟨0, [1]⟩]⟩).1 ∧
    (runDeferredCalls ⟨[⟨0, [1]⟩]⟩).2 = none := by
  refine ⟨rfl, by decide, rfl⟩

/-- C2 (amended): when no executing callback itself schedules a deferred
call, `runDeferredCalls()` invokes every callback that was scheduled before
the call exactly once, in submission order, completes, and clears the queue.
When some executing callback does call `doLater`, the callbacks up to and
including the first such one are invoked and the call then deadlocks
re-locking the non-recursive queue mutex it already holds: it never
completes, so the newly scheduled callback is invoked neither in that pass
nor by any later call. -/
theorem runDeferredCalls_spec (s : DeferredState) :
    runDeferredCalls s
      = match s.deferredCalls.dropWhile (fun c => c.schedules.isEmpty) with
        | [] => (s.deferredCalls.map DCall.id, some ⟨[]⟩)
        | c :: _ =>
          ((s.deferredCalls.takeWhile fun c => c.schedules.isEmpty).map
              DCall.id ++ [c.id], none) := by
  unfold runDeferredCalls
  rw [runDeferredLocked_eq]
  cases hd : s.deferredCalls.dropWhile (fun c => c.schedules.isEmpty) with
  | nil =>
    have htw : s.deferredCalls.takeWhile (fun c => c.schedules.isEmpty)
        = s.deferredCalls := by
      have h := List.takeWhile_append_dropWhile
        (p := fun c : DCall => c.schedules.isEmpty) (l := s.deferredCalls)
      rw [hd, List.append_nil] at h
      exact h
    simp [htw]
  | cons c rest => simp

/-- C3 counterexample: a registry holding one finished foreground task and
one finished background task.  The source counts them (no `finished`
filter): `getRunningTaskCount` returns 1 and `getRunningBackgroundTaskCount`
returns 1, whereas the claim's counts (non-finished only) are 0. -/
theorem runningTaskCount_counts_finished :
    getRunningTaskCount ⟨[(Task.create "fg" 0 false).finish], []⟩ = 1 ∧
    specRunningTaskCount ⟨[(Task.create "fg" 0 false).finish], []⟩ = 0 ∧
    getRunningBackgroundTaskCount ⟨[(Task.create "bg" 0 true).finish], []⟩ = 1 ∧
    specRunningBackgroundTaskCount ⟨[(Task.create "bg" 0 true).finish], []⟩ = 0 := by
  decide

/-- C3 (amended): the two counts partition ALL registered tasks by the
background flag alone — the `finished` flag is not consulted, so finished
tasks still in the registry (e.g. failed ones awaiting `clearException`, or
any finished task before the next `collectGarbage`) remain counted. -/
theorem running_counts_partition (s : TMState) :
    getRunningTaskCount s
      = (s.tasks.filter fun t => !t.isBackgroundTask).length ∧
    getRunningBackgroundTaskCount s
      = (s.tasks.filter fun t => t.isBackgroundTask).length ∧
    getRunningTaskCount s + getRunningBackgroundTaskCount s
      = s.tasks.length ∧
    getRunningTaskCount { s with tasks := s.tasks.map Task.finish }
      = getRunningTaskCount s ∧
    getRunningBackgroundTaskCount { s with tasks := s.tasks.map Task.finish }
      = getRunningBackgroundTaskCount s := by
  obtain ⟨l, cb⟩ := s
  refine ⟨?_, ?_, ?_, ?_, ?_⟩
  · simp [getRunningTaskCount, List.countP_eq_length_filter]
  · simp [getRunningBackgroundTaskCount, List.countP_eq_length_filter]
  · induction l with
    | nil => rfl
    | cons t rest ih =>
      simp only [getRunningTaskCount, getRunningBackgroundTaskCount,
        List.countP_cons, List.length_cons] at ih ⊢
      cases hb : t.isBackgroundTask <;> simp [hb] <;> omega
  · rw [getRunningTaskCount, getRunningTaskCount]
    simp only [List.countP_map]
    rfl
  · rw [getRunningBackgroundTaskCount, getRunningBackgroundTaskCount]
    simp only [List.countP_map]
    rfl

theorem collectGarbage_fst_tasks (s : TMState) :
    (collectGarbage s).1.tasks = survivingTasks s.tasks := by
  unfold collectGarbage
  split <;> rfl

/-- C5: the maintenance pass removes a registered task from the registry
exactly when its `finished` flag is true and its `hadException` flag is
false; in particular a task with `hadException = true` always survives the
pass. -/
theorem collectGarbage_removal (s : TMState) (t : Task) (ht : t ∈ s.tasks) :
    (t ∉ (collectGarbage s).1.tasks
        ↔ (t.isFinished = true ∧ t.hadException = false)) ∧
    (t.hadException = true → t ∈ (collectGarbage s).1.tasks) := by
  rw [collectGarbage_fst_tasks]
  unfold survivingTasks
  constructor
  · simp only [List.mem_filter, ht, true_and]
    cases hF : t.isFinished <;> cases hE : t.hadException <;> simp [hF, hE]
  · intro hE
    exact List.mem_filter.mpr ⟨ht, by simp [hE]⟩

/-- C5 witness: a finished task whose `hadException` flag is set is still in
the registry after `collectGarbage`. -/
theorem collectGarbage_removal_witness :
    ((Task.create "f" 0 false).exception "E").finish
      ∈ (collectGarbage
          ⟨[((Task.create "f" 0 false).exception "E").finish], []⟩).1.tasks :=
  (collectGarbage_removal
      ⟨[((Task.create "f" 0 false).exception "E").finish], []⟩
      (((Task.create "f" 0 false).exception "E").finish)
      (by decide)).2 (by decide)

/-- C6: a maintenance pass that leaves the registry empty fires every
completion callback, in registration order, and clears the queue; a pass
that leaves the registry non-empty fires nothing and leaves the queue
untouched; and a callback registered after a firing is fired by a later pass
that again finds the registry empty. -/
theorem collectGarbage_fires_callbacks (s : TMState) (c : Nat) :
    ((collectGarbage s).2
        = if (survivingTasks s.tasks).isEmpty then s.tasksFinishedCallbacks
          else []) ∧
    ((collectGarbage s).1.tasksFinishedCallbacks
        = if (survivingTasks s.tasks).isEmpty then []
          else s.tasksFinishedCallbacks) ∧
    ((collectGarbage s).1.tasks = [] →
      (collectGarbage (runWhenTasksFinished (collectGarbage s).1 c)).2
        = [c]) := by
  cases hsv : survivingTasks s.tasks with
  | nil =>
    have h1 : collectGarbage s = (⟨[], []⟩, s.tasksFinishedCallbacks) := by
      unfold collectGarbage
      rw [hsv]
      rfl
    refine ⟨?_, ?_, ?_⟩
    · rw [h1]
      rfl
    · rw [h1]
      rfl
    · intro _
      rw [h1]
      rfl
  | cons a l =>
    have h1 : collectGarbage s = (⟨a :: l, s.tasksFinishedCallbacks⟩, []) := by
      unfold collectGarbage
      rw [hsv]
      rfl
    refine ⟨?_, ?_, ?_⟩
    · rw [h1]
      rfl
    · rw [h1]
      rfl
    · intro h
      rw [h1] at h
      exact absurd h (by simp)

/-- C6 witness: with an empty registry and one registered completion
callback `7`, the pass fires `[7]`; registering `9` afterwards and running
another pass (registry still empty) fires `[9]`. -/
theorem collectGarbage_fires_callbacks_witness :
    (collectGarbage ⟨[], [7]⟩).2 = [7] ∧
    (collectGarbage (runWhenTasksFinished (collectGarbage ⟨[], [7]⟩).1 9)).2
      = [9] :=
  ⟨by rw [(collectGarbage_fires_callbacks ⟨[], [7]⟩ 9).1]; rfl,
   (collectGarbage_fires_callbacks ⟨[], [7]⟩ 9).2.2 (by decide)⟩

theorem update_fst (t : Task) (v : Nat) :
    (t.update v).1 = { t with currValue := v % U64 } := by
  simp only [Task.update]
  split <;> rfl

/-- C7: `Task::update(value)` stores the new progress value; it returns
normally exactly when no interrupt has been requested, and raises the
`TaskInterruptor` signal otherwise, unwinding past the rest of the work
function; among the work-function API calls, only `update` ever raises that
signal. -/
theorem update_checkpoint (t : Task) (v : Nat) :
    (t.update v
        = ({ t with currValue := v % U64 },
           if t.shouldInterrupt then some Thrown.interruptor else none)) ∧
    (∀ rest, t.shouldInterrupt = true →
      runWorkOps t (WorkOp.update v :: rest)
        = ({ t with currValue := v % U64 }, some Thrown.interruptor)) ∧
    (∀ t' : Task,
      (execWorkOp t' (WorkOp.setMaxValue v)).2 = none ∧
      (execWorkOp t' WorkOp.interrupt).2 = none ∧
      (execWorkOp t' WorkOp.clearException).2 = none) := by
  refine ⟨?_, ?_, fun t' => ⟨rfl, rfl, rfl⟩⟩
  · simp only [Task.update]
    cases h : t.shouldInterrupt <;> simp [h]
  · intro rest h
    simp [runWorkOps, execWorkOp, Task.update, h]

/-- C7 witness: on a task whose interruption has been requested,
`update 7` stores 7 and raises the signal; the following `update 9` of the
work function is never executed. -/
theorem update_checkpoint_witness :
    runWorkOps ((Task.create "w" 0 false).interrupt)
        [WorkOp.update 7, WorkOp.update 9]
      = ({ (Task.create "w" 0 false).interrupt with currValue := 7 % U64 },
         some Thrown.interruptor) :=
  (update_checkpoint ((Task.create "w" 0 false).interrupt) 7).2.1
    [WorkOp.update 9] (by decide)

/-- C10: a call `update(value)` made while interruption has been requested
stores `value` before raising the cancellation signal, so the progress value
observable afterwards (via `getValue`) equals the value passed to that final
`update` call. -/
theorem update_stores_progress_before_interrupt (t : Task) (v : Nat)
    (h : t.shouldInterrupt = true) :
    (t.update v).2 = some Thrown.interruptor ∧
    (t.update v).1.getValue = v % U64 ∧
    ∀ rest, (runWorkOps t (WorkOp.update v :: rest)).1.getValue = v % U64 := by
  refine ⟨?_, ?_, ?_⟩ <;>
    simp [Task.update, Task.getValue, h, runWorkOps, execWorkOp]

/-- C10 witness: after requesting interruption and then calling
`update 5`, the observable progress value is 5. -/
theorem update_stores_progress_before_interrupt_witness :
    (((Task.create "x" 10 false).interrupt).update 5).1.getValue = 5 % U64 :=
  (update_stores_progress_before_interrupt
      ((Task.create "x" 10 false).interrupt) 5 (by decide)).2.1

/-- C8 counterexample: a live task with `currValue = 2 ^ 32` and
`maxValue = 1`.  The claim's formula gives
`floor(current * 100 / max) = 429496729600`, but `getProgress` returns 0
(the `u32` cast truncates), and in particular `current > max` does not yield
a result above 100. -/
theorem getProgress_truncation :
    TaskHolder.getProgress
        ⟨some ((Task.create "big" 1 false).update (2 ^ 32)).1⟩ = 0 ∧
    ((Task.create "big" 1 false).update (2 ^ 32)).1.getValue = 2 ^ 32 ∧
    ((Task.create "big" 1 false).update (2 ^ 32)).1.getMaxValue = 1 ∧
    ((Task.create "big" 1 false).update (2 ^ 32)).1.getValue * 100
        / ((Task.create "big" 1 false).update (2 ^ 32)).1.getMaxValue
      = 429496729600 ∧
    ¬ 100 < TaskHolder.getProgress
        ⟨some ((Task.create "big" 1 false).update (2 ^ 32)).1⟩ := by
  decide

/-- C8 (amended): `getProgressPercent` returns 0 when the referent is gone
or its ceiling is 0; otherwise it returns
`((current * 100) mod 2 ^ 64) / max mod 2 ^ 32` — the `u64` product wraps
and the `u32` return type truncates — which coincides with
`floor(current * 100 / max)` (unclamped, so values above 100 are possible)
whenever the product does not wrap and the quotient fits in 32 bits. -/
theorem getProgress_spec (t : Task) (hmax : t.getMaxValue ≠ 0) :
    TaskHolder.getProgress ⟨some t⟩
        = t.getValue * 100 % U64 / t.getMaxValue % U32 ∧
    TaskHolder.getProgress (⟨none⟩ : TaskHolder) = 0 ∧
    (∀ t' : Task, t'.getMaxValue = 0 → TaskHolder.getProgress ⟨some t'⟩ = 0) ∧
    (t.getValue * 100 < U64 → t.getValue * 100 / t.getMaxValue < U32 →
      TaskHolder.getProgress ⟨some t⟩ = t.getValue * 100 / t.getMaxValue) := by
  refine ⟨?_, rfl, ?_, ?_⟩
  · simp [TaskHolder.getProgress, hmax]
  · intro t' h0
    simp [TaskHolder.getProgress, h0]
  · intro h1 h2
    simp [TaskHolder.getProgress, hmax, Nat.mod_eq_of_lt h1, Nat.mod_eq_of_lt h2]

/-- C8 witness: a live task with `currValue = 150` and `maxValue = 100`
reports its unclamped percent `floor(150 * 100 / 100) = 150`, above 100. -/
theorem getProgress_spec_witness :
    TaskHolder.getProgress
        ⟨some ((Task.create "w" 100 false).update 150).1⟩
      = ((Task.create "w" 100 false).update 150).1.getValue * 100
          / ((Task.create "w" 100 false).update 150).1.getMaxValue :=
  (getProgress_spec ((Task.create "w" 100 false).update 150).1
      (by decide)).2.2.2 (by decide) (by decide)

/-- C9 counterexample: `exception("Boom")` followed by `clearException()`
reaches a state whose exception message is populated ("Boom") while
`hadException` is false — `clearException` resets only the flag. -/
theorem exceptionMessage_after_clear :
    (((Task.create "t" 0 false).exception "Boom").clearException).getExceptionMessage
      = "Boom" ∧
    (((Task.create "t" 0 false).exception "Boom").clearException).hadException
      = false ∧
    ((Task.create "t" 0 false).exception "Boom").clearException
      = applyTOps (Task.create "t" 0 false)
          [TOp.exception "Boom", TOp.clearException] := by
  decide

theorem applyTOp_message_flag (t : Task) (op : TOp)
    (hop : op ≠ TOp.clearException)
    (h : t.getExceptionMessage ≠ "" → t.hadException = true) :
    (applyTOp t op).getExceptionMessage ≠ ""
      → (applyTOp t op).hadException = true := by
  cases op with
  | update v =>
    intro hm
    have h1 : (applyTOp t (TOp.update v)).getExceptionMessage
        = t.getExceptionMessage := by
      rw [show applyTOp t (TOp.update v) = (t.update v).1 from rfl, update_fst]
      rfl
    have h2 : (applyTOp t (TOp.update v)).hadException = t.hadException := by
      rw [show applyTOp t (TOp.update v) = (t.update v).1 from rfl, update_fst]
    rw [h1] at hm
    rw [h2]
    exact h hm
  | setMaxValue v =>
    intro hm
    exact h hm
  | interrupt =>
    intro hm
    exact h hm
  | clearException => exact absurd rfl hop
  | exception m =>
    intro _
    rfl
  | finish =>
    intro hm
    exact h hm
  | interruption =>
    intro hm
    exact h hm

theorem applyTOps_message_source (ops : List TOp) :
    ∀ t : Task, (applyTOps t ops).getExceptionMessage ≠ "" →
      t.getExceptionMessage ≠ "" ∨ ∃ m, TOp.exception m ∈ ops := by
  induction ops with
  | nil =>
    intro t h
    exact Or.inl h
  | cons op rest ih =>
    intro t h
    have hstep : applyTOps t (op :: rest) = applyTOps (applyTOp t op) rest := rfl
    rw [hstep] at h
    rcases ih (applyTOp t op) h with h1 | h1
    · cases op with
      | exception m => exact Or.inr ⟨m, List.mem_cons_self _ _⟩
      | update v =>
        left
        rwa [show applyTOp t (TOp.update v) = (t.update v).1 from rfl,
          update_fst] at h1
      | setMaxValue v => exact Or.inl h1
      | interrupt => exact Or.inl h1
      | clearException => exact Or.inl h1
      | finish => exact Or.inl h1
      | interruption => exact Or.inl h1
    · rcases h1 with ⟨m, hm⟩
      exact Or.inr ⟨m, List.mem_cons_of_mem _ hm⟩

/-- C9 (amended): in every task state reachable from a fresh task by the
Task operations: if `clearException` was never applied, a populated
exception message does imply `hadException = true`; in general the message
is populated only if `exception()` was invoked at some point —
`clearException` resets the flag but leaves the message in place, so the
message can remain observable with `hadException = false`. -/
theorem exceptionMessage_invariant (name : String) (mv : Nat) (bg : Bool)
    (ops : List TOp) :
    ((∀ op ∈ ops, op ≠ TOp.clearException) →
      (applyTOps (Task.create name mv bg) ops).getExceptionMessage ≠ "" →
      (applyTOps (Task.create name mv bg) ops).hadException = true) ∧
    ((applyTOps (Task.create name mv bg) ops).getExceptionMessage ≠ "" →
      ∃ m, TOp.exception m ∈ ops) := by
  constructor
  · intro hnc
    have main : ∀ (l : List TOp) (t : Task),
        (∀ op ∈ l, op ≠ TOp.clearException) →
        (t.getExceptionMessage ≠ "" → t.hadException = true) →
        ((applyTOps t l).getExceptionMessage ≠ ""
          → (applyTOps t l).hadException = true) := by
      intro l
      induction l with
      | nil =>
        intro t _ h
        exact h
      | cons op rest ih =>
        intro t hl h
        have hstep : applyTOps t (op :: rest) = applyTOps (applyTOp t op) rest :=
          rfl
        rw [hstep]
        exact ih (applyTOp t op) (fun x hx => hl x (List.mem_cons_of_mem _ hx))
          (applyTOp_message_flag t op (hl op (List.mem_cons_self _ _)) h)
    exact main ops (Task.create name mv bg) hnc fun hmsg => absurd rfl hmsg
  · intro h
    rcases applyTOps_message_source ops (Task.create name mv bg) h with h1 | h1
    · exact absurd rfl h1
    · exact h1

/-- C9 witness: after the single operation `exception "x"`, the message is
populated and `hadException = true`, and the provenance clause names the
`exception` operation. -/
theorem exceptionMessage_invariant_witness :
    (applyTOps (Task.create "t" 0 false) [TOp.exception "x"]).hadException
      = true ∧
    ∃ m, TOp.exception m ∈ [TOp.exception "x"] :=
  ⟨(exceptionMessage_invariant "t" 0 false [TOp.exception "x"]).1
      (by decide) (by decide),
   (exceptionMessage_invariant "t" 0 false [TOp.exception "x"]).2 (by decide)⟩

theorem execWorkOp_flags (t : Task) (op : WorkOp) :
    (execWorkOp t op).1.finished = t.finished ∧
    (execWorkOp t op).1.interrupted = t.interrupted ∧
    ((execWorkOp t op).1.hadException = true → t.hadException = true) := by
  cases op with
  | update v =>
    rw [show execWorkOp t (WorkOp.update v) = t.update v from rfl, update_fst]
    exact ⟨rfl, rfl, fun h => h⟩
  | setMaxValue v => exact ⟨rfl, rfl, fun h => h⟩
  | interrupt => exact ⟨rfl, rfl, fun h => h⟩
  | clearException =>
    refine ⟨rfl, rfl, fun h => ?_⟩
    exact absurd h (by simp [execWorkOp, Task.clearException])

theorem runWorkOps_flags (ops : List WorkOp) :
    ∀ t : Task,
      (runWorkOps t ops).1.finished = t.finished ∧
      (runWorkOps t ops).1.interrupted = t.interrupted ∧
      ((runWorkOps t ops).1.hadException = true → t.hadException = true) ∧
      (∀ s ∈ runWorkOpsTrace t ops, s.finished = t.finished) := by
  induction ops with
  | nil =>
    intro t
    exact ⟨rfl, rfl, fun h => h, by simp [runWorkOpsTrace]⟩
  | cons op rest ih =>
    intro t
    rcases hE : execWorkOp t op with ⟨t1, sig⟩
    have hflags := execWorkOp_flags t op
    rw [hE] at hflags
    obtain ⟨hf1, hi1, he1⟩ := hflags
    cases sig with
    | none =>
      obtain ⟨rf, ri, re, rtr⟩ := ih t1
      refine ⟨?_, ?_, ?_, ?_⟩
      · simp only [runWorkOps, hE]
        rw [rf, hf1]
      · simp only [runWorkOps, hE]
        rw [ri, hi1]
      · simp only [runWorkOps, hE]
        intro hx
        exact he1 (re hx)
      · simp only [runWorkOpsTrace, hE]
        intro s hs
        rcases List.mem_cons.mp hs with rfl | hs
        · exact hf1
        · rw [rtr s hs, hf1]
    | some sg =>
      refine ⟨?_, ?_, ?_, ?_⟩
      · simp only [runWorkOps, hE]
        exact hf1
      · simp only [runWorkOps, hE]
        exact hi1
      · simp only [runWorkOps, hE]
        exact he1
      · simp only [runWorkOpsTrace, hE]
        intro s hs
        rcases List.mem_cons.mp hs with rfl | hs
        · exact hf1
        · exact absurd hs (List.not_mem_nil s)

theorem classifyOutcome_finished (t : Task) (o : Option Thrown) :
    (classifyOutcome t o).finished = t.finished := by
  cases o with
  | none => rfl
  | some s => cases s <;> rfl

theorem runWork_fst (w : WorkFn) (t : Task) :
    (runWork w t).1 = (runWorkOps t w.ops).1 := by
  unfold runWork
  cases h : (runWorkOps t w.ops).2 <;> simp [h]

/-- C4: running a fresh task through a worker iteration classifies the work
function's exit as exactly one terminal outcome (interrupted by the
cancellation signal; failed, with the exception's message recorded, or the
generic message for a non-standard exception; or completed normally with
both failure flags false), and `finished` becomes true only after that
classification: every observable state with `finished = true` is the final,
fully classified one. -/
theorem worker_outcome_classification (w : WorkFn) (t : Task)
    (hf : t.finished = false) (hi : t.interrupted = false)
    (he : t.hadException = false) :
    (workerRunTask w t).finished = true ∧
    outcomeCount (workerRunTask w t) = 1 ∧
    (∀ s ∈ t :: workerRunTaskTrace w t,
      s.finished = true → s = workerRunTask w t) ∧
    (match (runWork w t).2 with
      | none => (workerRunTask w t).interrupted = false
          ∧ (workerRunTask w t).hadException = false
      | some Thrown.interruptor => (workerRunTask w t).interrupted = true
          ∧ (workerRunTask w t).hadException = false
      | some (Thrown.stdExc m) => (workerRunTask w t).hadException = true
          ∧ (workerRunTask w t).interrupted = false
          ∧ (workerRunTask w t).getExceptionMessage = m
      | some Thrown.unknownExc => (workerRunTask w t).hadException = true
          ∧ (workerRunTask w t).interrupted = false
          ∧ (workerRunTask w t).getExceptionMessage = "Unknown Exception") := by
  obtain ⟨rf, ri, re, rtr⟩ := runWorkOps_flags w.ops t
  have hfin1 : (runWork w t).1.finished = false := by
    rw [runWork_fst, rf, hf]
  have hint1 : (runWork w t).1.interrupted = false := by
    rw [runWork_fst, ri, hi]
  have hexc1 : (runWork w t).1.hadException = false := by
    rw [runWork_fst]
    cases hx : (runWorkOps t w.ops).1.hadException
    · rfl
    · have hcon := re hx
      rw [he] at hcon
      exact hcon.symm
  refine ⟨?_, ?_, ?_, ?_⟩
  · simp [workerRunTask, Task.finish]
  · cases hsig : (runWork w t).2 with
    | none =>
      simp [workerRunTask, hsig, classifyOutcome, outcomeCount, Task.finish,
        hint1, hexc1]
    | some sg =>
      cases sg <;>
        simp [workerRunTask, hsig, classifyOutcome, outcomeCount, Task.finish,
          Task.interruption, Task.exception, hint1, hexc1]
  · intro s hs hsf
    rcases List.mem_cons.mp hs with rfl | hs
    · rw [hf] at hsf
      exact absurd hsf (by decide)
    · unfold workerRunTaskTrace at hs
      rcases List.mem_append.mp hs with hs | hs
      · have hsfin := rtr s hs
        rw [hf] at hsfin
        rw [hsfin] at hsf
        exact absurd hsf (by decide)
      · rcases List.mem_cons.mp hs with rfl | hs
        · have hcf : (classifyOutcome (runWork w t).1 (runWork w t).2).finished
              = false := by
            rw [classifyOutcome_finished, hfin1]
          rw [hcf] at hsf
          exact absurd hsf (by decide)
        · rcases List.mem_cons.mp hs with rfl | hs
          · rfl
          · exact absurd hs (List.not_mem_nil s)
  · cases hsig : (runWork w t).2 with
    | none =>
      exact ⟨by simp [workerRunTask, hsig, classifyOutcome, Task.finish, hint1],
        by simp [workerRunTask, hsig, classifyOutcome, Task.finish, hexc1]⟩
    | some sg =>
      cases sg with
      | interruptor =>
        exact ⟨by simp [workerRunTask, hsig, classifyOutcome, Task.finish,
            Task.interruption],
          by simp [workerRunTask, hsig, classifyOutcome, Task.finish,
            Task.interruption, hexc1]⟩
      | stdExc m =>
        exact ⟨by simp [workerRunTask, hsig, classifyOutcome, Task.finish,
            Task.exception],
          by simp [workerRunTask, hsig, classifyOutcome, Task.finish,
            Task.exception, hint1],
          by simp [workerRunTask, hsig, classifyOutcome, Task.finish,
            Task.exception, Task.getExceptionMessage]⟩
      | unknownExc =>
        exact ⟨by simp [workerRunTask, hsig, classifyOutcome, Task.finish,
            Task.exception],
          by simp [workerRunTask, hsig, classifyOutcome, Task.finish,
            Task.exception, hint1],
          by simp [workerRunTask, hsig, classifyOutcome, Task.finish,
            Task.exception, Task.getExceptionMessage]⟩

/-- C4 witness: a fresh task whose work function immediately throws a
standard exception ends finished with exactly one terminal outcome. -/
theorem worker_outcome_classification_witness :
    (workerRunTask ⟨[], WorkEnd.throwStd "Err"⟩
        (Task.create "w" 0 false)).finished = true ∧
    outcomeCount (workerRunTask ⟨[], WorkEnd.throwStd "Err"⟩
        (Task.create "w" 0 false)) = 1 :=
  ⟨(worker_outcome_classification ⟨[], WorkEnd.throwStd "Err"⟩
      (Task.create "w" 0 false) rfl rfl rfl).1,
   (worker_outcome_classification ⟨[], WorkEnd.throwStd "Err"⟩
      (Task.create "w" 0 false) rfl rfl rfl).2.1⟩

end TaskManagerSpec
